import Mathlib

/-!
Verification of the core client-side logic of a stock-market dashboard:
the composite derivation engine (set-intersection filtering, re-ranking,
rising/falling split), the paper-trading aggregator (exclusion toggles and
summary arithmetic), the expiring session store, and the activity-throttle
state machine.  Each definition is a shallow embedding of the corresponding
TypeScript source; JavaScript numbers that only undergo exact arithmetic and
sign tests are modelled as rationals, timestamps as naturals (milliseconds).
-/

namespace StockDashboard

/-- Ranking entry of one security (interface `Stock` in `types/stock.ts`);
only the fields consumed by the derivation layer are carried. -/
structure Stock where
  rank : Nat
  code : String
  name : String
  current_price : Int
  change_rate : ℚ
  volume : Int
  trading_value : Option Int
deriving Repr, DecidableEq

/-- A ranked list split by market segment (`{kospi, kosdaq}` pairs). -/
structure MarketPair where
  kospi : List Stock
  kosdaq : List Stock
deriving Repr, DecidableEq

/-- Change-rate data split into up/down per market (interface
`FluctuationData`). -/
structure FluctuationData where
  kospi_up : List Stock
  kospi_down : List Stock
  kosdaq_up : List Stock
  kosdaq_down : List Stock
deriving Repr, DecidableEq

/-- The snapshot fields consumed by the derivation layer (interface
`StockData`; history/news/theme fields are view-only and omitted). -/
structure StockData where
  timestamp : String
  rising : MarketPair
  falling : MarketPair
  volume : Option MarketPair
  trading_value : Option MarketPair
  fluctuation : Option FluctuationData
  fluctuation_direct : Option FluctuationData
deriving Repr, DecidableEq

/-- Embedding of `type FluctuationMode = "calculated" | "direct"`. -/
inductive FluctuationMode where
  | calculated
  | direct
deriving Repr, DecidableEq

/-- Embedding of `type CompositeMode = "all" | "trading_volume" | "trading_fluc" | "volume_fluc"`. -/
inductive CompositeMode where
  | all
  | trading_volume
  | trading_fluc
  | volume_fluc
deriving Repr, DecidableEq

/-- Flag `hasNewFields = !!displayData?.volume` (App.tsx): a snapshot is
new-schema when the volume breakdown is present. -/
def hasNewFields (d : StockData) : Bool :=
  d.volume.isSome

/-- The `activeFluctuationData` memo of App.tsx, for a present snapshot:
new-schema snapshots use `fluctuation` (or `fluctuation_direct || fluctuation`
in direct mode); legacy snapshots synthesize the lists from rising/falling. -/
def activeFluctuationData (d : StockData) (fm : FluctuationMode) :
    Option FluctuationData :=
  if hasNewFields d then
    match fm with
    | FluctuationMode.direct => d.fluctuation_direct.or d.fluctuation
    | FluctuationMode.calculated => d.fluctuation
  else
    some { kospi_up := d.rising.kospi
           kospi_down := d.falling.kospi
           kosdaq_up := d.rising.kosdaq
           kosdaq_down := d.falling.kosdaq }

/-- The rising/falling output pair of the composite derivation. -/
structure CompositeResult where
  rising : MarketPair
  falling : MarketPair
deriving Repr, DecidableEq

/-- The `.map((s) => ({ ...s, rank: ++rank }))` re-ranking loop of
`compositeData`: rewrite ranks to `n+1, n+2, ...` in list order. -/
def assignRanks (n : Nat) : List Stock → List Stock
  | [] => []
  | s :: rest => { s with rank := n + 1 } :: assignRanks (n + 1) rest

/-- Shared tail of `compositeData`: filter the base list of each market, split by
change-rate sign, and re-rank each sublist from 1. -/
def compositeSplit (baseKospi baseKosdaq : List Stock)
    (filterKospi filterKosdaq : Stock → Bool) : CompositeResult :=
  let kospiFiltered := baseKospi.filter filterKospi
  let kosdaqFiltered := baseKosdaq.filter filterKosdaq
  { rising :=
      { kospi := assignRanks 0 (kospiFiltered.filter (fun s => s.change_rate > 0))
        kosdaq := assignRanks 0 (kosdaqFiltered.filter (fun s => s.change_rate > 0)) }
    falling :=
      { kospi := assignRanks 0 (kospiFiltered.filter (fun s => s.change_rate < 0))
        kosdaq := assignRanks 0 (kosdaqFiltered.filter (fun s => s.change_rate < 0)) } }

/-- The `compositeData` memo of App.tsx: returns `none` for legacy snapshots,
otherwise builds the fluctuation code sets (union of up and down codes), the
volume code sets, selects base list and filter per composition mode, filters
preserving base order, and splits/re-ranks. -/
def compositeData (d : StockData) (fm : FluctuationMode) (cm : CompositeMode) :
    Option CompositeResult :=
  if hasNewFields d then
    let afd := activeFluctuationData d fm
    let flucKospiAll :=
      ((afd.map FluctuationData.kospi_up).getD []).map Stock.code ++
      ((afd.map FluctuationData.kospi_down).getD []).map Stock.code
    let flucKosdaqAll :=
      ((afd.map FluctuationData.kosdaq_up).getD []).map Stock.code ++
      ((afd.map FluctuationData.kosdaq_down).getD []).map Stock.code
    let volKospiSet := ((d.volume.map MarketPair.kospi).getD []).map Stock.code
    let volKosdaqSet := ((d.volume.map MarketPair.kosdaq).getD []).map Stock.code
    let tvKospi := (d.trading_value.map MarketPair.kospi).getD []
    let tvKosdaq := (d.trading_value.map MarketPair.kosdaq).getD []
    let volKospi := (d.volume.map MarketPair.kospi).getD []
    let volKosdaq := (d.volume.map MarketPair.kosdaq).getD []
    match cm with
    | CompositeMode.all =>
        some (compositeSplit tvKospi tvKosdaq
          (fun s => flucKospiAll.contains s.code && volKospiSet.contains s.code)
          (fun s => flucKosdaqAll.contains s.code && volKosdaqSet.contains s.code))
    | CompositeMode.trading_volume =>
        some (compositeSplit tvKospi tvKosdaq
          (fun s => volKospiSet.contains s.code)
          (fun s => volKosdaqSet.contains s.code))
    | CompositeMode.trading_fluc =>
        some (compositeSplit tvKospi tvKosdaq
          (fun s => flucKospiAll.contains s.code)
          (fun s => flucKosdaqAll.contains s.code))
    | CompositeMode.volume_fluc =>
        some (compositeSplit volKospi volKosdaq
          (fun s => flucKospiAll.contains s.code)
          (fun s => flucKosdaqAll.contains s.code))
  else
    none

/-- The fluctuation membership codes (union of up and down codes per market)
as the spec describes them, for restating mode `all` against the code. -/
def flucCodes (d : StockData) (fm : FluctuationMode) : List String × List String :=
  let afd := activeFluctuationData d fm
  (((afd.map FluctuationData.kospi_up).getD []).map Stock.code ++
     ((afd.map FluctuationData.kospi_down).getD []).map Stock.code,
   ((afd.map FluctuationData.kosdaq_up).getD []).map Stock.code ++
     ((afd.map FluctuationData.kosdaq_down).getD []).map Stock.code)

/-- Restatement of the mode-`all` filter as the spec words it: the stocks of
the trading-value list whose code lies both in the union of the up and down
lists of the fluctuation source and in the volume list, in trading-value
order.  Stated with propositional membership, to be compared with the
`Set.has`-based filter of the code. -/
def specAllFiltered (d : StockData) (fm : FluctuationMode) :
    List Stock × List Stock :=
  let fc := flucCodes d fm
  let volK := ((d.volume.map MarketPair.kospi).getD []).map Stock.code
  let volQ := ((d.volume.map MarketPair.kosdaq).getD []).map Stock.code
  (((d.trading_value.map MarketPair.kospi).getD []).filter
      (fun s => decide (s.code ∈ fc.1 ∧ s.code ∈ volK)),
   ((d.trading_value.map MarketPair.kosdaq).getD []).filter
      (fun s => decide (s.code ∈ fc.2 ∧ s.code ∈ volQ)))

/-!
## Paper-trading aggregator (`usePaperTradingData.ts`, `PaperTradingPage.tsx`)
-/

/-- One simulated position for one trading day (interface
`PaperTradingStock`); monetary fields are kept as rationals. -/
structure PaperTradingStock where
  code : String
  name : String
  theme : String
  buy_price : ℚ
  close_price : ℚ
  profit_rate : ℚ
  profit_amount : ℚ
  high_price : Option ℚ
deriving Repr, DecidableEq

/-- Paper-trading file of one day (interface `PaperTradingData`; the
precomputed embedded summary and intraday price snapshots are not consumed
by the aggregation under verification). -/
structure PaperTradingData where
  trade_date : String
  morning_timestamp : String
  stocks : List PaperTradingStock
deriving Repr, DecidableEq

/-- Per-day exclusion key builder `` `${date}:${code}` ``. -/
def stockKey (date code : String) : String :=
  date ++ ":" ++ code

/-- Embedding of `type PaperTradingMode = "close" | "high"`. -/
inductive PaperTradingMode where
  | close
  | high
deriving Repr, DecidableEq

/-- The `activeStocks` memo of `usePaperTradingData`: flatten the daily data
over the selected dates, keeping only non-excluded entries, in iteration
order.  JavaScript `Set`/`Map` are modelled as a list of dates and an
association list. -/
def activeStocks (sel : List String)
    (daily : List (String × PaperTradingData)) (excl : List String) :
    List PaperTradingStock :=
  match sel with
  | [] => []
  | date :: rest =>
      (match daily.lookup date with
       | some data =>
           data.stocks.filter (fun s => !excl.contains (stockKey date s.code))
       | none => []) ++ activeStocks rest daily excl

/-- Behaviour of `Math.round` on an exact rational: JavaScript rounds half
upward, i.e. `⌊x + 1/2⌋`. -/
def jsRound (x : ℚ) : ℤ :=
  ⌊x + 1 / 2⌋

/-- The summary record computed by the `summary` memo of
`usePaperTradingData`. -/
structure Summary where
  totalDays : Nat
  totalStocks : Nat
  profitStocks : Nat
  lossStocks : Nat
  flatStocks : Nat
  totalInvested : ℚ
  totalValue : ℚ
  totalProfit : ℚ
  totalProfitRate : ℚ
deriving Repr, DecidableEq

/-- The `summary` memo of `usePaperTradingData` (lines 181–204): counts by
sign of `profit_rate`, sums of buy and close prices over the active stocks,
and the rounded total profit rate. -/
def summary (sel : List String)
    (daily : List (String × PaperTradingData)) (excl : List String) : Summary :=
  let active := activeStocks sel daily excl
  let totalStocks := active.length
  let profitStocks := (active.filter (fun s => s.profit_rate > 0)).length
  let lossStocks := (active.filter (fun s => s.profit_rate < 0)).length
  let flatStocks := (active.filter (fun s => s.profit_rate == 0)).length
  let totalInvested := active.foldl (fun sum s => sum + s.buy_price) 0
  let totalValue := active.foldl (fun sum s => sum + s.close_price) 0
  let totalProfit := totalValue - totalInvested
  let totalProfitRate :=
    if totalInvested > 0 then (jsRound (totalProfit / totalInvested * 10000) : ℚ) / 100
    else 0
  { totalDays := sel.length
    totalStocks := totalStocks
    profitStocks := profitStocks
    lossStocks := lossStocks
    flatStocks := flatStocks
    totalInvested := totalInvested
    totalValue := totalValue
    totalProfit := totalProfit
    totalProfitRate := totalProfitRate }

/-- JavaScript `Set.add`: append the key when absent. -/
def setAdd (s : List String) (k : String) : List String :=
  if s.contains k then s else s ++ [k]

/-- JavaScript `Set.delete`: drop the key. -/
def setDelete (s : List String) (k : String) : List String :=
  s.filter (fun x => x ≠ k)

/-- Group toggle `toggleAllStocks(date, codes)` of `usePaperTradingData`:
if every key for the given codes is already excluded, delete them all,
otherwise add them all. -/
def toggleAllStocks (prev : List String) (date : String)
    (codes : List String) : List String :=
  let keys := codes.map (stockKey date)
  let allExcluded := keys.all (fun k => prev.contains k)
  if allExcluded then keys.foldl setDelete prev
  else keys.foldl setAdd prev

/-- The per-day value computed inline in `PaperTradingPage.tsx`
(lines 146–150): active stocks of the day, valued at
`high_price ?? close_price` in high mode and at `close_price` otherwise. -/
def dayValue (mode : PaperTradingMode) (date : String)
    (data : PaperTradingData) (excl : List String) : ℚ :=
  let activeStocksForDay :=
    data.stocks.filter (fun s => !excl.contains (stockKey date s.code))
  match mode with
  | PaperTradingMode.high =>
      activeStocksForDay.foldl (fun sum s => sum + s.high_price.getD s.close_price) 0
  | PaperTradingMode.close =>
      activeStocksForDay.foldl (fun sum s => sum + s.close_price) 0

/-- Modelled from the spec: the mode-aware aggregate `totalValue` of §4.6 —
"`totalValue = Σ close_price` (or `Σ high_price` when a \"sell at high\" mode
is active and `high_price` is present, else fall back to `close_price`)".
The hook revision computing this aggregate is not under `src/` (only its
caller `PaperTradingPage.tsx`, which computes the matching per-day value,
is); the summation is taken over the same active stocks the in-source hook
uses. -/
def totalValueSpec (mode : PaperTradingMode) (sel : List String)
    (daily : List (String × PaperTradingData)) (excl : List String) : ℚ :=
  (activeStocks sel daily excl).foldl
    (fun sum s =>
      sum + (match mode with
             | PaperTradingMode.high => s.high_price.getD s.close_price
             | PaperTradingMode.close => s.close_price)) 0

/-!
## Expiring session store (`expire-storage.ts`)
-/

/-- A raw value held in `localStorage`, as `ExpireStorage.getItem` classifies
it: either it parses as the wrapped form `{ value, __expire__ }`, or it is a
plain (legacy/foreign) string. -/
inductive StoredVal where
  | wrapped (value : String) (expire : Nat)
  | raw (s : String)
deriving Repr, DecidableEq

/-- Storage surface `localStorage`, modelled as an association list keyed by `String`. -/
def LocalStorage : Type :=
  List (String × StoredVal)

/-- Read primitive `localStorage.getItem`. -/
def lsGet (st : LocalStorage) (k : String) : Option StoredVal :=
  List.lookup k st

/-- Delete primitive `localStorage.removeItem`. -/
def lsRemove (st : LocalStorage) (k : String) : LocalStorage :=
  List.filter (fun p => p.1 ≠ k) st

/-- Write primitive `localStorage.setItem`. -/
def lsSet (st : LocalStorage) (k : String) (v : StoredVal) : LocalStorage :=
  (k, v) :: lsRemove st k

/-- Constant `SESSION_DURATION_MS = 8 * 60 * 60 * 1000` (8 hours). -/
def SESSION_DURATION_MS : Nat :=
  8 * 60 * 60 * 1000

/-- Key `ADMIN_FLAG_KEY` under which the exempt flag itself is stored. -/
def ADMIN_FLAG_KEY : String :=
  "__session_is_admin__"

/-- Operation `ExpireStorage.setAdmin`: store the plain string `"1"` or remove the
flag key. -/
def setAdmin (st : LocalStorage) (isAdmin : Bool) : LocalStorage :=
  if isAdmin then lsSet st ADMIN_FLAG_KEY (StoredVal.raw "1")
  else lsRemove st ADMIN_FLAG_KEY

/-- Operation `ExpireStorage.isAdmin`: the flag key holds exactly the plain string
`"1"` (a wrapped JSON blob under that key would not compare equal). -/
def isAdmin (st : LocalStorage) : Bool :=
  match lsGet st ADMIN_FLAG_KEY with
  | some (StoredVal.raw s) => s == "1"
  | _ => false

/-- Operation `ExpireStorage.getItem(key)` at time `now`: returns the read result and
the possibly-updated storage (expiry deletes the entry).  Admin bypasses
expiry; non-wrapped values are returned verbatim. -/
def getItem (now : Nat) (st : LocalStorage) (key : String) :
    Option String × LocalStorage :=
  match lsGet st key with
  | none => (none, st)
  | some (StoredVal.wrapped v e) =>
      if isAdmin st then (some v, st)
      else if now > e then (none, lsRemove st key)
      else (some v, st)
  | some (StoredVal.raw s) => (some s, st)

/-- Operation `ExpireStorage.setItem(key, value)` at time `now`: wrap the value with
the absolute expiry `now + SESSION_DURATION_MS`. -/
def setItem (now : Nat) (st : LocalStorage) (key value : String) :
    LocalStorage :=
  lsSet st key (StoredVal.wrapped value (now + SESSION_DURATION_MS))

/-!
## Activity throttle (`useAuth.tsx` provider)
-/

/-- Constant `INACTIVITY_TIMEOUT_MS = 60 * 60 * 1000` (1 hour). -/
def INACTIVITY_TIMEOUT_MS : Nat :=
  60 * 60 * 1000

/-- Constant `ACTIVITY_THROTTLE_MS = 30 * 1000` (30 seconds). -/
def ACTIVITY_THROTTLE_MS : Nat :=
  30 * 1000

/-- The monitor state while a non-exempt user is authenticated:
`lastActivity` mirrors `lastActivityRef`, `deadline` is the instant the
pending inactivity timeout would fire, and `resets` is a ghost counter of
timer resets (`resetInactivityTimer` invocations) used to state
reset-frequency properties; it has no counterpart in the source. -/
structure ActivityState where
  lastActivity : Nat
  deadline : Nat
  resets : Nat
deriving Repr, DecidableEq

/-- Handler `handleActivity` (auth provider): accept the event and reset the
countdown only when more than `ACTIVITY_THROTTLE_MS` elapsed since the last
accepted event; otherwise ignore it.  Times are milliseconds; truncated
natural subtraction agrees with the JavaScript comparison (a negative
elapsed time is never `> 30000`). -/
def handleActivity (st : ActivityState) (now : Nat) : ActivityState :=
  if now - st.lastActivity > ACTIVITY_THROTTLE_MS then
    { lastActivity := now
      deadline := now + INACTIVITY_TIMEOUT_MS
      resets := st.resets + 1 }
  else st

/-- Process a sequence of activity events in order. -/
def processEvents (st : ActivityState) (ts : List Nat) : ActivityState :=
  ts.foldl handleActivity st

/-!
## Concrete example data used by witnesses
-/

/-- Example stock A of the composite-derivation example: in the
trading-value list, the volume list and the fluctuation lists. -/
def exA : Stock :=
  { rank := 1, code := "000001", name := "A", current_price := 10000
    change_rate := 5, volume := 900, trading_value := some 500 }

/-- Example stock B: in trading-value and fluctuation, missing from
volume. -/
def exB : Stock :=
  { rank := 2, code := "000002", name := "B", current_price := 20000
    change_rate := 3, volume := 800, trading_value := some 400 }

/-- Example stock C: in trading-value and volume, missing from
fluctuation. -/
def exC : Stock :=
  { rank := 3, code := "000003", name := "C", current_price := 30000
    change_rate := -2, volume := 700, trading_value := some 300 }

/-- Example stock D: in trading-value and fluctuation, missing from
volume. -/
def exD : Stock :=
  { rank := 4, code := "000004", name := "D", current_price := 40000
    change_rate := -4, volume := 600, trading_value := some 200 }

/-- Example snapshot for mode `all`: trading-value list `[A,B,C,D]`,
volume members `{A,C}`, fluctuation members `{A,B,D}` (up `[A,B]`,
down `[D]`). -/
def exSnapshot : StockData :=
  { timestamp := "2026-02-10 09:30:00"
    rising := { kospi := [], kosdaq := [] }
    falling := { kospi := [], kosdaq := [] }
    volume := some { kospi := [exA, exC], kosdaq := [] }
    trading_value := some { kospi := [exA, exB, exC, exD], kosdaq := [] }
    fluctuation := some { kospi_up := [exA, exB], kospi_down := [exD]
                          kosdaq_up := [], kosdaq_down := [] }
    fluctuation_direct := none }

/-- The composite output of `exSnapshot` in mode `all`: only A survives. -/
def exComposite : CompositeResult :=
  { rising := { kospi := [exA], kosdaq := [] }
    falling := { kospi := [], kosdaq := [] } }

/-- A stock with the given rank, positive change rate, shared code
prefix — used by the rank-reassignment example. -/
def mkRanked (r : Nat) (c : String) (cr : ℚ) : Stock :=
  { rank := r, code := c, name := c, current_price := 1000
    change_rate := cr, volume := 10, trading_value := none }

/-- Example snapshot for rank re-assignment: trading-value base ranks
`[1,3,7]` survive the fluctuation filter (mode `trading_fluc`); a
zero-change stock (rank 5) also passes the membership filter. -/
def exSnapshot2 : StockData :=
  { timestamp := "2026-02-10 09:30:00"
    rising := { kospi := [], kosdaq := [] }
    falling := { kospi := [], kosdaq := [] }
    volume := some { kospi := [], kosdaq := [] }
    trading_value := some
      { kospi := [mkRanked 1 "100" 4, mkRanked 3 "300" 2, mkRanked 5 "500" 0,
                  mkRanked 7 "700" 9]
        kosdaq := [] }
    fluctuation := some
      { kospi_up := [mkRanked 1 "100" 4, mkRanked 3 "300" 2,
                     mkRanked 5 "500" 0, mkRanked 7 "700" 9]
        kospi_down := [], kosdaq_up := [], kosdaq_down := [] }
    fluctuation_direct := none }

/-- The composite output of `exSnapshot2` in mode `trading_fluc`:
survivors with base ranks `[1,3,7]` are re-ranked `[1,2,3]`; the
zero-change rank-5 stock is dropped from both sublists. -/
def exComposite2 : CompositeResult :=
  { rising := { kospi := [mkRanked 1 "100" 4, mkRanked 2 "300" 2,
                          mkRanked 3 "700" 9]
                kosdaq := [] }
    falling := { kospi := [], kosdaq := [] } }

/-- Example paper-trading day of the summary-arithmetic example: buy
prices `[10000, 20000]`, close prices `[11000, 19000]`. -/
def exDay : PaperTradingData :=
  { trade_date := "2026-02-10"
    morning_timestamp := "2026-02-10 09:30:00"
    stocks :=
      [{ code := "056080", name := "S1", theme := "T", buy_price := 10000
         close_price := 11000, profit_rate := 10, profit_amount := 1000
         high_price := some 11500 },
       { code := "034230", name := "S2", theme := "T", buy_price := 20000
         close_price := 19000, profit_rate := -5, profit_amount := -1000
         high_price := none }] }

/-!
## Session-store lemmas and claims
-/

theorem lsGet_lsRemove_self (st : LocalStorage) (k : String) :
    lsGet (lsRemove st k) k = none := by
  induction st with
  | nil => rfl
  | cons p rest ih =>
      by_cases h : p.1 = k
      · simpa [lsRemove, List.filter, h] using ih
      · have hne : (k == p.1) = false := by
          simp [beq_eq_false_iff_ne]
          exact fun hk => h hk.symm
        simp only [lsRemove, List.filter, decide_eq_true_eq] at ih ⊢
        simp [h, lsGet, List.lookup, hne] at ih ⊢
        exact ih

theorem lsGet_lsSet_self (st : LocalStorage) (k : String) (v : StoredVal) :
    lsGet (lsSet st k v) k = some v := by
  simp [lsGet, lsSet, List.lookup]

/-- C3: a value written via the store is read back unchanged strictly before
its 8-hour expiry; once past the stored expiry timestamp and with the exempt
flag unset, the read yields `null` and the entry is deleted from storage. -/
theorem expire_storage_expiry_invariant (st : LocalStorage) (k v : String)
    (t₀ t₁ : Nat) :
    (t₁ < t₀ + SESSION_DURATION_MS →
      (getItem t₁ (setItem t₀ st k v) k).1 = some v) ∧
    (t₁ > t₀ + SESSION_DURATION_MS →
      isAdmin (setItem t₀ st k v) = false →
      getItem t₁ (setItem t₀ st k v) k
        = (none, lsRemove (setItem t₀ st k v) k) ∧
      lsGet (getItem t₁ (setItem t₀ st k v) k).2 k = none) := by
  have hget : lsGet (setItem t₀ st k v) k
      = some (StoredVal.wrapped v (t₀ + SESSION_DURATION_MS)) :=
    lsGet_lsSet_self st k _
  constructor
  · intro hlt
    have hnot : ¬ t₁ > t₀ + SESSION_DURATION_MS := by omega
    unfold getItem
    rw [hget]
    by_cases ha : isAdmin (setItem t₀ st k v)
    · simp [ha]
    · simp [ha, hnot]
  · intro hgt hadm
    have hres : getItem t₁ (setItem t₀ st k v) k
        = (none, lsRemove (setItem t₀ st k v) k) := by
      unfold getItem
      rw [hget]
      simp [hadm, hgt]
    exact ⟨hres, by rw [hres]; exact lsGet_lsRemove_self _ _⟩

/-- Witness for C3 at a concrete write/read pair. -/
theorem expire_storage_expiry_invariant_witness :
    (getItem 100 (setItem 0 [] "sb-token" "tok") "sb-token").1 = some "tok" ∧
    getItem 28800001 (setItem 0 [] "sb-token" "tok") "sb-token"
      = (none, lsRemove (setItem 0 [] "sb-token" "tok") "sb-token") := by
  have h := expire_storage_expiry_invariant [] "sb-token" "tok" 0 28800001
  exact ⟨(expire_storage_expiry_invariant [] "sb-token" "tok" 0 100).1 (by decide),
    (h.2 (by decide) (by decide)).1⟩

/-- C4: while the exempt flag is set, a `get` of any key holding a wrapped
item returns the inner value and leaves the storage untouched, no matter how
old the stored expiry timestamp is. -/
theorem expire_storage_admin_bypass (st : LocalStorage) (k v : String)
    (e now : Nat) (hadm : isAdmin st = true)
    (hk : lsGet st k = some (StoredVal.wrapped v e)) :
    getItem now st k = (some v, st) := by
  unfold getItem
  rw [hk]
  simp [hadm]

/-- Witness for C4: an expiry arbitrarily far in the past is ignored for an
admin session. -/
theorem expire_storage_admin_bypass_witness :
    getItem 999999999999
      [(ADMIN_FLAG_KEY, StoredVal.raw "1"),
       ("sb-token", StoredVal.wrapped "tok" 0)] "sb-token"
      = (some "tok",
         [(ADMIN_FLAG_KEY, StoredVal.raw "1"),
          ("sb-token", StoredVal.wrapped "tok" 0)]) :=
  expire_storage_admin_bypass _ "sb-token" "tok" 0 999999999999
    (by decide) (by decide)

/-!
## Activity-throttle lemmas and claim
-/

theorem handleActivity_ignored (st : ActivityState) (now : Nat)
    (h : now - st.lastActivity ≤ ACTIVITY_THROTTLE_MS) :
    handleActivity st now = st := by
  unfold handleActivity
  have : ¬ now - st.lastActivity > ACTIVITY_THROTTLE_MS := by omega
  simp [this]

theorem processEvents_all_ignored (st : ActivityState) (ts : List Nat)
    (h : ∀ t ∈ ts, t - st.lastActivity ≤ ACTIVITY_THROTTLE_MS) :
    processEvents st ts = st := by
  induction ts with
  | nil => rfl
  | cons t rest ih =>
      have hstep : handleActivity st t = st :=
        handleActivity_ignored st t (h t (List.mem_cons_self t rest))
      show processEvents (handleActivity st t) rest = st
      rw [hstep]
      exact ih (fun t' ht' => h t' (List.mem_cons_of_mem t ht'))

/-- C9: an event within the 30-second throttle of the last accepted event
never resets the countdown; over a burst of events pairwise less than 30
seconds apart the countdown is reset at most once; and the first event more
than 30 seconds after the last accepted one resets the countdown and becomes
the new baseline. -/
theorem activity_throttle_claim :
    (∀ (st : ActivityState) (now : Nat),
      now - st.lastActivity ≤ ACTIVITY_THROTTLE_MS →
      handleActivity st now = st) ∧
    (∀ (st : ActivityState) (ts : List Nat),
      (∀ t ∈ ts, ∀ t' ∈ ts, t - t' < ACTIVITY_THROTTLE_MS) →
      (processEvents st ts).resets ≤ st.resets + 1) ∧
    (∀ (st : ActivityState) (now : Nat),
      now - st.lastActivity > ACTIVITY_THROTTLE_MS →
      handleActivity st now
        = { lastActivity := now, deadline := now + INACTIVITY_TIMEOUT_MS
            resets := st.resets + 1 }) := by
  refine ⟨handleActivity_ignored, ?_, ?_⟩
  · intro st ts h
    induction ts generalizing st with
    | nil => simp [processEvents]
    | cons t rest ih =>
        show (processEvents (handleActivity st t) rest).resets ≤ st.resets + 1
        by_cases hacc : t - st.lastActivity > ACTIVITY_THROTTLE_MS
        · have hst : handleActivity st t
              = { lastActivity := t, deadline := t + INACTIVITY_TIMEOUT_MS
                  resets := st.resets + 1 } := by
            unfold handleActivity
            simp [hacc]
          rw [hst]
          have hrest : processEvents
              { lastActivity := t, deadline := t + INACTIVITY_TIMEOUT_MS
                resets := st.resets + 1 } rest
              = { lastActivity := t, deadline := t + INACTIVITY_TIMEOUT_MS
                  resets := st.resets + 1 } := by
            apply processEvents_all_ignored
            intro t' ht'
            have := h t' (List.mem_cons_of_mem t ht') t (List.mem_cons_self t rest)
            show t' - t ≤ ACTIVITY_THROTTLE_MS
            omega
          rw [hrest]
        · have hst : handleActivity st t = st := by
            unfold handleActivity
            simp [hacc]
          rw [hst]
          exact ih st (fun a ha b hb =>
            h a (List.mem_cons_of_mem t ha) b (List.mem_cons_of_mem t hb))
  · intro st now hacc
    unfold handleActivity
    simp [hacc]

/-- Witness for C9: a throttled event leaves the state unchanged, a burst of
three events pairwise under 30 s resets at most once, and an event past the
throttle installs a new baseline. -/
theorem activity_throttle_claim_witness :
    handleActivity ⟨100000, 3700000, 0⟩ 110000 = ⟨100000, 3700000, 0⟩ ∧
    (processEvents ⟨0, 3600000, 0⟩ [40000, 50000, 60000]).resets ≤ 0 + 1 ∧
    handleActivity ⟨0, 3600000, 0⟩ 40000 = ⟨40000, 3640000, 1⟩ := by
  refine ⟨activity_throttle_claim.1 _ _ (by decide),
          activity_throttle_claim.2.1 ⟨0, 3600000, 0⟩ [40000, 50000, 60000]
            (by decide),
          activity_throttle_claim.2.2 ⟨0, 3600000, 0⟩ 40000 (by decide)⟩

/-!
## Exclusion-set (group toggle) lemmas and claim
-/

theorem mem_setAdd (s : List String) (k k' : String) :
    k ∈ setAdd s k' ↔ (k ∈ s ∨ k = k') := by
  unfold setAdd
  by_cases hm : k' ∈ s
  · have hc : s.contains k' = true := by simpa [List.elem_iff] using hm
    rw [hc]
    simp only [if_true]
    exact ⟨Or.inl, fun h => h.elim id (fun he => by rw [he]; exact hm)⟩
  · have hc : s.contains k' = false := by
      cases hb : s.contains k'
      · rfl
      · exact absurd (by simpa [List.elem_iff] using hb) hm
    rw [hc]
    simp [List.mem_append]

theorem mem_setDelete (s : List String) (k k' : String) :
    k ∈ setDelete s k' ↔ (k ∈ s ∧ k ≠ k') := by
  unfold setDelete
  simp [List.mem_filter]

theorem mem_foldl_setAdd (keys : List String) (s : List String) (k : String) :
    k ∈ keys.foldl setAdd s ↔ (k ∈ s ∨ k ∈ keys) := by
  induction keys generalizing s with
  | nil => simp [List.foldl]
  | cons a rest ih =>
      show k ∈ rest.foldl setAdd (setAdd s a) ↔ _
      rw [ih, mem_setAdd]
      simp only [List.mem_cons]
      tauto

theorem mem_foldl_setDelete (keys : List String) (s : List String)
    (k : String) :
    k ∈ keys.foldl setDelete s ↔ (k ∈ s ∧ k ∉ keys) := by
  induction keys generalizing s with
  | nil => simp [List.foldl]
  | cons a rest ih =>
      show k ∈ rest.foldl setDelete (setDelete s a) ↔ _
      rw [ih, mem_setDelete]
      simp only [List.mem_cons]
      tauto

theorem mem_toggleAllStocks (prev : List String) (date : String)
    (codes : List String) (k : String) :
    k ∈ toggleAllStocks prev date codes ↔
      (if ∀ c ∈ codes, stockKey date c ∈ prev
       then k ∈ prev ∧ k ∉ codes.map (stockKey date)
       else k ∈ prev ∨ k ∈ codes.map (stockKey date)) := by
  have hall : ((codes.map (stockKey date)).all (fun x => prev.contains x) = true)
      ↔ ∀ c ∈ codes, stockKey date c ∈ prev := by
    simp [List.all_eq_true, List.elem_iff]
  have hshow : toggleAllStocks prev date codes
      = if ((codes.map (stockKey date)).all (fun x => prev.contains x)) = true
        then List.foldl setDelete prev (codes.map (stockKey date))
        else List.foldl setAdd prev (codes.map (stockKey date)) := rfl
  by_cases h : ∀ c ∈ codes, stockKey date c ∈ prev
  · rw [if_pos h, hshow, hall.mpr h, if_pos rfl, mem_foldl_setDelete]
  · have hb : (codes.map (stockKey date)).all (fun x => prev.contains x) = false := by
      cases hb : (codes.map (stockKey date)).all (fun x => prev.contains x)
      · rfl
      · exact absurd (hall.mp hb) h
    rw [if_neg h, hshow, hb, if_neg (by simp), mem_foldl_setAdd]

/-- C8: `toggleAllStocks` is all-or-nothing — when every given code is
excluded it un-excludes them all, otherwise it excludes them all; keys
outside the given group are untouched; and when only some codes were
excluded, a second call returns every given code to included. -/
theorem toggle_all_stocks_group (prev : List String) (date : String)
    (codes : List String) :
    ((∀ c ∈ codes, stockKey date c ∈ prev) →
      ∀ c ∈ codes, stockKey date c ∉ toggleAllStocks prev date codes) ∧
    ((¬ ∀ c ∈ codes, stockKey date c ∈ prev) →
      ∀ c ∈ codes, stockKey date c ∈ toggleAllStocks prev date codes) ∧
    (∀ k, k ∉ codes.map (stockKey date) →
      (k ∈ toggleAllStocks prev date codes ↔ k ∈ prev)) ∧
    ((¬ ∀ c ∈ codes, stockKey date c ∈ prev) →
      ∀ c ∈ codes,
        stockKey date c ∉
          toggleAllStocks (toggleAllStocks prev date codes) date codes) := by
  refine ⟨?_, ?_, ?_, ?_⟩
  · intro hall c hc hmem
    rw [mem_toggleAllStocks, if_pos hall] at hmem
    exact hmem.2 (List.mem_map_of_mem _ hc)
  · intro hnall c hc
    rw [mem_toggleAllStocks, if_neg hnall]
    exact Or.inr (List.mem_map_of_mem _ hc)
  · intro k hk
    rw [mem_toggleAllStocks]
    by_cases h : ∀ c ∈ codes, stockKey date c ∈ prev
    · rw [if_pos h]
      exact ⟨fun hm => hm.1, fun hm => ⟨hm, hk⟩⟩
    · rw [if_neg h]
      exact ⟨fun hm => hm.elim id (fun hm' => absurd hm' hk), Or.inl⟩
  · intro hnall c hc hmem
    have hall2 : ∀ c' ∈ codes,
        stockKey date c' ∈ toggleAllStocks prev date codes := by
      intro c' hc'
      rw [mem_toggleAllStocks, if_neg hnall]
      exact Or.inr (List.mem_map_of_mem _ hc')
    rw [mem_toggleAllStocks, if_pos hall2] at hmem
    exact hmem.2 (List.mem_map_of_mem _ hc)

/-- Witness for C8 at a partially-excluded group: one of two codes excluded,
the toggle excludes both, and a second toggle includes both again. -/
theorem toggle_all_stocks_group_witness :
    stockKey "2026-02-10" "034230"
      ∈ toggleAllStocks ["2026-02-10:056080"] "2026-02-10"
          ["056080", "034230"] ∧
    stockKey "2026-02-10" "056080"
      ∈ toggleAllStocks ["2026-02-10:056080"] "2026-02-10"
          ["056080", "034230"] ∧
    stockKey "2026-02-10" "056080"
      ∉ toggleAllStocks
          (toggleAllStocks ["2026-02-10:056080"] "2026-02-10"
            ["056080", "034230"])
          "2026-02-10" ["056080", "034230"] := by
  have h := toggle_all_stocks_group ["2026-02-10:056080"] "2026-02-10"
    ["056080", "034230"]
  refine ⟨h.2.1 (by decide) "034230" (by decide),
          h.2.1 (by decide) "056080" (by decide),
          h.2.2.2 (by decide) "056080" (by decide)⟩

/-!
## Paper-trading summary lemmas and claims
-/

theorem count_sign_partition (l : List PaperTradingStock) :
    (l.filter (fun s => s.profit_rate > 0)).length
      + (l.filter (fun s => s.profit_rate < 0)).length
      + (l.filter (fun s => s.profit_rate == 0)).length = l.length := by
  induction l with
  | nil => rfl
  | cons a rest ih =>
      rcases lt_trichotomy a.profit_rate 0 with h | h | h
      · have h1 : ¬ a.profit_rate > 0 := not_lt.mpr h.le
        simp [List.filter_cons, h, h1, h.ne] at ih ⊢
        omega
      · simp [List.filter_cons, h] at ih ⊢
        omega
      · have h2 : ¬ a.profit_rate < 0 := not_lt.mpr h.le
        simp [List.filter_cons, h, h2, h.ne'] at ih ⊢
        omega

/-- C10: the profit/loss/flat counts of the aggregate summary partition the
active stocks by the sign of `profit_rate`. -/
theorem summary_counts_partition (sel : List String)
    (daily : List (String × PaperTradingData)) (excl : List String) :
    (summary sel daily excl).profitStocks + (summary sel daily excl).lossStocks
      + (summary sel daily excl).flatStocks
      = (summary sel daily excl).totalStocks :=
  count_sign_partition (activeStocks sel daily excl)

theorem jsRound_zero : jsRound 0 = 0 := by
  unfold jsRound
  rw [zero_add]
  exact Int.floor_eq_zero_iff.mpr (by constructor <;> norm_num)

theorem exDay_active :
    activeStocks ["2026-02-10"] [("2026-02-10", exDay)] [] = exDay.stocks := by
  simp [activeStocks, List.lookup, List.filter, exDay]

theorem exDay_invested :
    (summary ["2026-02-10"] [("2026-02-10", exDay)] []).totalInvested
      = 30000 := by
  have h : (summary ["2026-02-10"] [("2026-02-10", exDay)] []).totalInvested
      = (activeStocks ["2026-02-10"] [("2026-02-10", exDay)] []).foldl
          (fun sum s => sum + s.buy_price) 0 := rfl
  rw [h, exDay_active]
  show (0 : ℚ) + 10000 + 20000 = 30000
  norm_num

theorem exDay_value :
    (summary ["2026-02-10"] [("2026-02-10", exDay)] []).totalValue = 30000 := by
  have h : (summary ["2026-02-10"] [("2026-02-10", exDay)] []).totalValue
      = (activeStocks ["2026-02-10"] [("2026-02-10", exDay)] []).foldl
          (fun sum s => sum + s.close_price) 0 := rfl
  rw [h, exDay_active]
  show (0 : ℚ) + 11000 + 19000 = 30000
  norm_num

theorem exDay_profit :
    (summary ["2026-02-10"] [("2026-02-10", exDay)] []).totalProfit = 0 := by
  have h : (summary ["2026-02-10"] [("2026-02-10", exDay)] []).totalProfit
      = (summary ["2026-02-10"] [("2026-02-10", exDay)] []).totalValue
        - (summary ["2026-02-10"] [("2026-02-10", exDay)] []).totalInvested :=
    rfl
  rw [h, exDay_value, exDay_invested]
  norm_num

theorem exDay_rate :
    (summary ["2026-02-10"] [("2026-02-10", exDay)] []).totalProfitRate
      = 0 := by
  have h : (summary ["2026-02-10"] [("2026-02-10", exDay)] []).totalProfitRate
      = if (summary ["2026-02-10"] [("2026-02-10", exDay)] []).totalInvested > 0
        then (jsRound ((summary ["2026-02-10"] [("2026-02-10", exDay)] []).totalProfit
            / (summary ["2026-02-10"] [("2026-02-10", exDay)] []).totalInvested
            * 10000) : ℚ) / 100
        else 0 := rfl
  rw [h, if_pos (by rw [exDay_invested]; norm_num), exDay_profit, exDay_invested]
  norm_num [jsRound_zero]

/-- C5: the aggregate summary satisfies
`totalProfitRate = round((totalValue - totalInvested)/totalInvested·10000)/100`
whenever `totalInvested > 0`, is `0` when `totalInvested = 0`, and the
two-position example (buys 10000/20000, closes 11000/19000) comes out flat. -/
theorem summary_profit_rate_invariant :
    (∀ (sel : List String) (daily : List (String × PaperTradingData))
        (excl : List String),
      ((summary sel daily excl).totalInvested > 0 →
        (summary sel daily excl).totalProfitRate
          = (jsRound (((summary sel daily excl).totalValue
                - (summary sel daily excl).totalInvested)
              / (summary sel daily excl).totalInvested * 10000) : ℚ) / 100) ∧
      ((summary sel daily excl).totalInvested = 0 →
        (summary sel daily excl).totalProfitRate = 0)) ∧
    ((summary ["2026-02-10"] [("2026-02-10", exDay)] []).totalInvested = 30000 ∧
     (summary ["2026-02-10"] [("2026-02-10", exDay)] []).totalValue = 30000 ∧
     (summary ["2026-02-10"] [("2026-02-10", exDay)] []).totalProfit = 0 ∧
     (summary ["2026-02-10"] [("2026-02-10", exDay)] []).totalProfitRate = 0) := by
  refine ⟨?_, exDay_invested, exDay_value, exDay_profit, exDay_rate⟩
  intro sel daily excl
  have hrate : (summary sel daily excl).totalProfitRate
      = if (summary sel daily excl).totalInvested > 0
        then (jsRound ((summary sel daily excl).totalProfit
            / (summary sel daily excl).totalInvested * 10000) : ℚ) / 100
        else 0 := rfl
  have hprofit : (summary sel daily excl).totalProfit
      = (summary sel daily excl).totalValue
        - (summary sel daily excl).totalInvested := rfl
  constructor
  · intro h
    rw [hrate, if_pos h, hprofit]
  · intro h
    rw [hrate, if_neg (by rw [h]; exact lt_irrefl 0)]

/-- Witness for C5 instantiating the universal part at the example day. -/
theorem summary_profit_rate_invariant_witness :
    (summary ["2026-02-10"] [("2026-02-10", exDay)] []).totalProfitRate
      = (jsRound (((summary ["2026-02-10"] [("2026-02-10", exDay)] []).totalValue
            - (summary ["2026-02-10"] [("2026-02-10", exDay)] []).totalInvested)
          / (summary ["2026-02-10"] [("2026-02-10", exDay)] []).totalInvested
          * 10000) : ℚ) / 100 :=
  ((summary_profit_rate_invariant.1 ["2026-02-10"] [("2026-02-10", exDay)]
    []).1) (by rw [exDay_invested]; norm_num)

theorem foldl_add_map {α : Type} (f : α → ℚ) (l : List α) (a : ℚ) :
    l.foldl (fun acc x => acc + f x) a = a + (l.map f).sum := by
  induction l generalizing a with
  | nil => simp
  | cons x rest ih =>
      show rest.foldl _ (a + f x) = _
      rw [ih]
      simp [List.sum_cons]
      ring

theorem dayValue_high_eq (date : String) (data : PaperTradingData)
    (excl : List String) :
    dayValue PaperTradingMode.high date data excl
      = ((data.stocks.filter
            (fun s => !excl.contains (stockKey date s.code))).map
          (fun s => s.high_price.getD s.close_price)).sum := by
  show (data.stocks.filter _).foldl _ 0 = _
  rw [foldl_add_map, zero_add]

theorem dayValue_close_eq (date : String) (data : PaperTradingData)
    (excl : List String) :
    dayValue PaperTradingMode.close date data excl
      = ((data.stocks.filter
            (fun s => !excl.contains (stockKey date s.code))).map
          (fun s => s.close_price)).sum := by
  show (data.stocks.filter _).foldl _ 0 = _
  rw [foldl_add_map, zero_add]

theorem activeStocks_map_sum_eq_days (f : PaperTradingStock → ℚ)
    (sel : List String) (daily : List (String × PaperTradingData))
    (excl : List String) :
    ((activeStocks sel daily excl).map f).sum
      = (sel.map (fun date =>
          match daily.lookup date with
          | some data =>
              ((data.stocks.filter
                  (fun s => !excl.contains (stockKey date s.code))).map f).sum
          | none => 0)).sum := by
  induction sel with
  | nil => rfl
  | cons date rest ih =>
      show ((( match daily.lookup date with
               | some data => data.stocks.filter
                   (fun s => !excl.contains (stockKey date s.code))
               | none => []) ++ activeStocks rest daily excl).map f).sum = _
      rw [List.map_append, List.sum_append, ih]
      cases hd : daily.lookup date <;> simp [hd]

/-- C2: with "sell at high" active the aggregate total value is the sum of
`high_price` (falling back to `close_price`) over the active stocks, and
with it inactive the sum of `close_price`; the close-mode aggregate is
exactly the `totalValue` of the in-source hook summary, and the aggregate of
each mode equals the sum over the selected dates of the in-source per-day
`dayValue` of `PaperTradingPage`. -/
theorem paper_trading_total_value_modes (sel : List String)
    (daily : List (String × PaperTradingData)) (excl : List String) :
    totalValueSpec PaperTradingMode.high sel daily excl
      = ((activeStocks sel daily excl).map
          (fun s => s.high_price.getD s.close_price)).sum ∧
    totalValueSpec PaperTradingMode.close sel daily excl
      = ((activeStocks sel daily excl).map (fun s => s.close_price)).sum ∧
    totalValueSpec PaperTradingMode.close sel daily excl
      = (summary sel daily excl).totalValue ∧
    totalValueSpec PaperTradingMode.high sel daily excl
      = (sel.map (fun date =>
          match daily.lookup date with
          | some data => dayValue PaperTradingMode.high date data excl
          | none => 0)).sum ∧
    totalValueSpec PaperTradingMode.close sel daily excl
      = (sel.map (fun date =>
          match daily.lookup date with
          | some data => dayValue PaperTradingMode.close date data excl
          | none => 0)).sum := by
  have hhigh : totalValueSpec PaperTradingMode.high sel daily excl
      = ((activeStocks sel daily excl).map
          (fun s => s.high_price.getD s.close_price)).sum := by
    show (activeStocks sel daily excl).foldl _ 0 = _
    rw [foldl_add_map, zero_add]
  have hclose : totalValueSpec PaperTradingMode.close sel daily excl
      = ((activeStocks sel daily excl).map (fun s => s.close_price)).sum := by
    show (activeStocks sel daily excl).foldl _ 0 = _
    rw [foldl_add_map, zero_add]
  refine ⟨hhigh, hclose, rfl, ?_, ?_⟩
  · rw [hhigh, activeStocks_map_sum_eq_days]
    congr 1
    congr 1
    funext date
    cases hd : daily.lookup date with
    | none => rfl
    | some data => exact (dayValue_high_eq date data excl).symm
  · rw [hclose, activeStocks_map_sum_eq_days]
    congr 1
    congr 1
    funext date
    cases hd : daily.lookup date with
    | none => rfl
    | some data => exact (dayValue_close_eq date data excl).symm

/-!
## Composite-derivation lemmas and claims
-/

theorem contains_eq_decide_mem (l : List String) (x : String) :
    l.contains x = decide (x ∈ l) := by
  by_cases h : x ∈ l <;> simp [h, List.elem_iff]

theorem assignRanks_length (n : Nat) (l : List Stock) :
    (assignRanks n l).length = l.length := by
  induction l generalizing n with
  | nil => rfl
  | cons a rest ih =>
      show (assignRanks (n + 1) rest).length + 1 = rest.length + 1
      rw [ih]

theorem assignRanks_map_rank (n : Nat) (l : List Stock) :
    (assignRanks n l).map Stock.rank = List.range' (n + 1) l.length := by
  induction l generalizing n with
  | nil => rfl
  | cons a rest ih =>
      show (n + 1) :: (assignRanks (n + 1) rest).map Stock.rank
        = (n + 1) :: List.range' (n + 1 + 1) rest.length
      rw [ih]

theorem mem_assignRanks_change_rate (n : Nat) (l : List Stock) (s : Stock)
    (h : s ∈ assignRanks n l) : ∃ s' ∈ l, s.change_rate = s'.change_rate := by
  induction l generalizing n with
  | nil => cases h
  | cons a rest ih =>
      rcases List.mem_cons.mp h with h1 | h2
      · exact ⟨a, List.mem_cons_self a rest, by rw [h1]⟩
      · obtain ⟨s', hs', he⟩ := ih (n + 1) h2
        exact ⟨s', List.mem_cons_of_mem a hs', he⟩

theorem compositeData_cases (d : StockData) (fm : FluctuationMode)
    (cm : CompositeMode) (out : CompositeResult)
    (h : compositeData d fm cm = some out) :
    ∃ (bK bQ : List Stock) (fK fQ : Stock → Bool),
      out = compositeSplit bK bQ fK fQ := by
  unfold compositeData at h
  cases hnf : hasNewFields d with
  | false => rw [hnf] at h; simp at h
  | true =>
      rw [hnf] at h
      cases cm <;> simp only [if_true, Option.some.injEq] at h <;>
        exact ⟨_, _, _, _, h.symm⟩

theorem mem_compositeSplit_pos
    (l : List Stock) (p : Stock → Bool) (s : Stock)
    (h : s ∈ assignRanks 0 (l.filter p)) :
    ∃ s' : Stock, p s' = true ∧ s.change_rate = s'.change_rate := by
  obtain ⟨s', hs', he⟩ := mem_assignRanks_change_rate 0 _ s h
  exact ⟨s', (List.mem_filter.mp hs').2, he⟩

theorem compositeSplit_no_zero (bK bQ : List Stock) (fK fQ : Stock → Bool)
    (s : Stock)
    (h : s ∈ (compositeSplit bK bQ fK fQ).rising.kospi ∨
         s ∈ (compositeSplit bK bQ fK fQ).rising.kosdaq ∨
         s ∈ (compositeSplit bK bQ fK fQ).falling.kospi ∨
         s ∈ (compositeSplit bK bQ fK fQ).falling.kosdaq) :
    s.change_rate ≠ 0 := by
  rcases h with h | h | h | h
  · obtain ⟨s', hp, he⟩ := mem_compositeSplit_pos _ _ s h
    rw [he]
    exact ne_of_gt (of_decide_eq_true hp)
  · obtain ⟨s', hp, he⟩ := mem_compositeSplit_pos _ _ s h
    rw [he]
    exact ne_of_gt (of_decide_eq_true hp)
  · obtain ⟨s', hp, he⟩ := mem_compositeSplit_pos _ _ s h
    rw [he]
    exact ne_of_lt (of_decide_eq_true hp)
  · obtain ⟨s', hp, he⟩ := mem_compositeSplit_pos _ _ s h
    rw [he]
    exact ne_of_lt (of_decide_eq_true hp)

/-- C6: a stock whose change rate is zero appears in neither the rising nor
the falling output of the composite derivation, in any mode and with either
fluctuation source. -/
theorem composite_zero_change_excluded (d : StockData)
    (fm : FluctuationMode) (cm : CompositeMode) (out : CompositeResult)
    (h : compositeData d fm cm = some out) (s : Stock)
    (hs : s ∈ out.rising.kospi ∨ s ∈ out.rising.kosdaq ∨
          s ∈ out.falling.kospi ∨ s ∈ out.falling.kosdaq) :
    s.change_rate ≠ 0 := by
  obtain ⟨bK, bQ, fK, fQ, rfl⟩ := compositeData_cases d fm cm out h
  exact compositeSplit_no_zero bK bQ fK fQ s hs

/-- Witness for C6: in the example snapshot a zero-change stock passes the
membership filter yet the surviving rising stock has nonzero change rate. -/
theorem composite_zero_change_excluded_witness :
    (mkRanked 1 "100" 4).change_rate ≠ 0 :=
  composite_zero_change_excluded exSnapshot2 FluctuationMode.calculated
    CompositeMode.trading_fluc exComposite2 (by decide) (mkRanked 1 "100" 4)
    (Or.inl (by decide))

/-- C7: each output list of the composite derivation carries the contiguous
ranks `1..n` in list order, regardless of the original survivor ranks. -/
theorem composite_rank_contiguous (d : StockData) (fm : FluctuationMode)
    (cm : CompositeMode) (out : CompositeResult)
    (h : compositeData d fm cm = some out) :
    out.rising.kospi.map Stock.rank = List.range' 1 out.rising.kospi.length ∧
    out.rising.kosdaq.map Stock.rank = List.range' 1 out.rising.kosdaq.length ∧
    out.falling.kospi.map Stock.rank = List.range' 1 out.falling.kospi.length ∧
    out.falling.kosdaq.map Stock.rank
      = List.range' 1 out.falling.kosdaq.length := by
  obtain ⟨bK, bQ, fK, fQ, rfl⟩ := compositeData_cases d fm cm out h
  refine ⟨?_, ?_, ?_, ?_⟩ <;>
    · show (assignRanks 0 _).map Stock.rank = List.range' 1 (assignRanks 0 _).length
      rw [assignRanks_map_rank, assignRanks_length]

/-- Witness for C7: survivors with base ranks `[1,3,7]` get ranks
`[1,2,3]`. -/
theorem composite_rank_contiguous_witness :
    exComposite2.rising.kospi.map Stock.rank
      = List.range' 1 exComposite2.rising.kospi.length ∧
    exComposite2.rising.kospi.map Stock.rank = [1, 2, 3] := by
  refine ⟨(composite_rank_contiguous exSnapshot2 FluctuationMode.calculated
    CompositeMode.trading_fluc exComposite2 (by decide)).1, by decide⟩

/-- C1: in mode `all` the composite derivation keeps exactly the stocks of
the trading-value list whose code lies both in the union of the fluctuation
up and down lists of the fluctuation source and in the volume list, in
trading-value order, split by change-rate sign and re-ranked. -/
theorem composite_all_mode (d : StockData) (fm : FluctuationMode)
    (out : CompositeResult)
    (h : compositeData d fm CompositeMode.all = some out) :
    out.rising.kospi = assignRanks 0
      ((specAllFiltered d fm).1.filter (fun s => decide (s.change_rate > 0))) ∧
    out.falling.kospi = assignRanks 0
      ((specAllFiltered d fm).1.filter (fun s => decide (s.change_rate < 0))) ∧
    out.rising.kosdaq = assignRanks 0
      ((specAllFiltered d fm).2.filter (fun s => decide (s.change_rate > 0))) ∧
    out.falling.kosdaq = assignRanks 0
      ((specAllFiltered d fm).2.filter (fun s => decide (s.change_rate < 0))) := by
  unfold compositeData at h
  cases hnf : hasNewFields d with
  | false => rw [hnf] at h; simp at h
  | true =>
      rw [hnf] at h
      simp only [if_true, Option.some.injEq] at h
      have hK :
          ((d.trading_value.map MarketPair.kospi).getD []).filter
            (fun s =>
              ((((activeFluctuationData d fm).map FluctuationData.kospi_up).getD
                  []).map Stock.code ++
                (((activeFluctuationData d fm).map
                    FluctuationData.kospi_down).getD []).map
                  Stock.code).contains s.code &&
              (((d.volume.map MarketPair.kospi).getD []).map
                Stock.code).contains s.code)
          = (specAllFiltered d fm).1 := by
        show _ = List.filter _ _
        congr 1
        funext s
        simp [contains_eq_decide_mem, flucCodes, Bool.decide_and]
      have hQ :
          ((d.trading_value.map MarketPair.kosdaq).getD []).filter
            (fun s =>
              ((((activeFluctuationData d fm).map
                    FluctuationData.kosdaq_up).getD []).map Stock.code ++
                (((activeFluctuationData d fm).map
                    FluctuationData.kosdaq_down).getD []).map
                  Stock.code).contains s.code &&
              (((d.volume.map MarketPair.kosdaq).getD []).map
                Stock.code).contains s.code)
          = (specAllFiltered d fm).2 := by
        show _ = List.filter _ _
        congr 1
        funext s
        simp [contains_eq_decide_mem, flucCodes, Bool.decide_and]
      rw [← h]
      exact ⟨by rw [← hK]; rfl, by rw [← hK]; rfl,
             by rw [← hQ]; rfl, by rw [← hQ]; rfl⟩

/-- Witness for C1: trading-value list `[A,B,C,D]`, volume members `{A,C}`,
fluctuation members `{A,B,D}`: the filtered list is exactly `[A]`, and the
rising output is `[A]` re-ranked. -/
theorem composite_all_mode_witness :
    (specAllFiltered exSnapshot FluctuationMode.calculated).1 = [exA] ∧
    exComposite.rising.kospi = assignRanks 0
      ((specAllFiltered exSnapshot FluctuationMode.calculated).1.filter
        (fun s => decide (s.change_rate > 0))) := by
  refine ⟨by decide, (composite_all_mode exSnapshot FluctuationMode.calculated
    exComposite (by decide)).1⟩

end StockDashboard
